import Mathlib

/-!
# UserInfoManagement: request handlers and validators

A shallow embedding of `src/controllers/userControllers.go`, `src/models/user.go`
and `src/routes/routes.go`.

* Go strings are Lean `String`s; `len(s)` is the UTF-8 byte length.
* `regexp.MustCompile(p).MatchString(s)` for a pattern anchored with `^` and `$`
  is language membership of the whole string; the two patterns of the source are
  written as `RegularExpression Char` terms and matched with the derivative matcher.
* `mail.ParseAddress` is library code: the handlers take its verdict (`err == nil`)
  as the parameter `parseAddress : String → Bool`.
* The table behind `db` is a list of rows with an auto-increment counter. Every store
  call of a handler can return an error: the request context says which calls do.
-/

namespace UserInfoManagement

/-! ## models/user.go -/

/-- The `models.User` row: `Id` is the `int64` primary key. -/
structure User where
  Id : Int
  FullName : String
  Email : String
  PhoneNo : String
  Image : String
  CreateaAt : String
  UpdatedAt : String
deriving DecidableEq, Repr

/-- The zero value `models.User{}`. -/
def User.zero : User :=
  { Id := 0, FullName := "", Email := "", PhoneNo := "", Image := "", CreateaAt := "", UpdatedAt := "" }

/-! ## Regular expressions -/

/-- One-of: the alternation of the single characters of `cs` (a character class). -/
def oneOf (cs : List Char) : RegularExpression Char :=
  cs.foldr (fun c r => RegularExpression.char c + r) 0

/-- The regex `r?`. -/
def opt (r : RegularExpression Char) : RegularExpression Char := 1 + r

/-- The regex `r+` (also written `r{1,}`). -/
def many1 (r : RegularExpression Char) : RegularExpression Char := r * RegularExpression.star r

/-- The regex of a literal string. -/
def lit (s : String) : RegularExpression Char :=
  s.data.foldr (fun c r => RegularExpression.char c * r) 1

/-- Characters of `a-z`. -/
def lowerChars : List Char := "abcdefghijklmnopqrstuvwxyz".data

/-- Characters of `A-Z`. -/
def upperChars : List Char := "ABCDEFGHIJKLMNOPQRSTUVWXYZ".data

/-- Characters of `\d` (ASCII digits in Go). -/
def digitChars : List Char := "0123456789".data

/-- The class `[a-zA-Z]`. -/
def alphaClass : RegularExpression Char := oneOf (lowerChars ++ upperChars)

/-- The class `\d`. -/
def digitClass : RegularExpression Char := oneOf digitChars

/-- The class `[\-\.\ \\\/]`: hyphen, dot, space, backslash, slash. -/
def sepClass : RegularExpression Char := oneOf ['-', '.', ' ', '\\', '/']

/-- The pattern `^[a-zA-Z]{1,}(?: [a-zA-Z]+){0,2}$` of `fullNameValidation`. -/
def fullNamePattern : RegularExpression Char :=
  many1 alphaClass *
    opt ((RegularExpression.char ' ' * many1 alphaClass) *
      opt (RegularExpression.char ' ' * many1 alphaClass))

/-- The optional country-code prefix of the phone pattern:
`(?:(?:\(?(?:00|\+)([1-4]\d\d|[1-9]\d?)\)?)?[\-\.\ \\\/]?)?`. -/
def phonePrefix : RegularExpression Char :=
  opt (opt (opt (RegularExpression.char '(') *
        (lit "00" + RegularExpression.char '+') *
        (oneOf "1234".data * digitClass * digitClass + oneOf "123456789".data * opt digitClass) *
        opt (RegularExpression.char ')')) *
      opt sepClass)

/-- The digit groups of the phone pattern: `((?:\(?\d{1,}\)?[\-\.\ \\\/]?){0,})`. -/
def phoneGroups : RegularExpression Char :=
  RegularExpression.star
    (opt (RegularExpression.char '(') * many1 digitClass * opt (RegularExpression.char ')') *
      opt sepClass)

/-- The optional extension suffix of the phone pattern:
`(?:[\-\.\ \\\/]?(?:#|ext\.?|extension|x)[\-\.\ \\\/]?(\d+))?`. -/
def phoneExtension : RegularExpression Char :=
  opt (opt sepClass *
      (RegularExpression.char '#' + lit "ext" * opt (RegularExpression.char '.') +
        lit "extension" + RegularExpression.char 'x') *
      opt sepClass * many1 digitClass)

/-- The whole pattern of `phoneValidation`, between `^` and `$`. -/
def phonePattern : RegularExpression Char :=
  phonePrefix * phoneGroups * phoneExtension

/-- `pattern.MatchString(s)` for a pattern anchored at both ends. -/
def MatchString (pattern : RegularExpression Char) (s : String) : Bool :=
  pattern.rmatch s.data

/-! ## Validators -/

/-- User name validation function (`fullNameValidation`). -/
def fullNameValidation (fullName : String) : String × Bool :=
  if fullName.utf8ByteSize < 2 ∨ fullName.utf8ByteSize > 30 then
    ("Full name should be more than two characters. note: Full name length range should be two to thirty characters", false)
  else
    let matched := MatchString fullNamePattern fullName
    if !matched then
      ("Fullname is invalid. Example of fullname is 'abcd xyz'", false)
    else
      ("", true)

/-! ## The store

The table `users` behind the global `db` handle.  Rows are kept in the order
`db.Find` returns them; `nextId` is the auto-increment counter of the primary key.
String comparison in `Where` clauses is exact equality. -/

/-- The `users` table. -/
structure DB where
  rows : List User
  nextId : Int
deriving DecidableEq, Repr

/-- The table before any request: no rows, keys start at one. -/
def DB.empty : DB := { rows := [], nextId := 1 }

/-- Keeps the row with the smaller primary key (the earlier one on a tie). -/
def minById (acc : Option User) (r : User) : Option User :=
  match acc with
  | none => some r
  | some x => if r.Id < x.Id then some r else some x

/-- The query `db.Where(cond).First(&result)`: the matching row with the smallest
primary key (`ORDER BY id LIMIT 1`), or `none` when no row matches. -/
def dbFirst (rows : List User) (cond : User → Bool) : Option User :=
  (rows.filter cond).foldl minById none

/-- The statement `db.Create(&user)` for a row whose key is zero: the store assigns the
next auto-increment key; returns the table and the row as written back. -/
def dbCreate (db : DB) (user : User) : DB × User :=
  let stored := { user with Id := db.nextId }
  ({ rows := db.rows ++ [stored], nextId := db.nextId + 1 }, stored)

/-- The statement `db.Save(&user)` for a row with a non-zero key: every column of the
row with that key is overwritten; when no row has the key the row is inserted. -/
def dbSave (db : DB) (user : User) : DB :=
  if db.rows.any (fun r => r.Id = user.Id) then
    { db with rows := db.rows.map (fun r => if r.Id = user.Id then user else r) }
  else
    { rows := db.rows ++ [user], nextId := max db.nextId (user.Id + 1) }

/-- The statement `db.Where(cond).Unscoped().Delete(&user)`: the table without the
matching rows, and `RowsAffected`. -/
def dbDelete (db : DB) (cond : User → Bool) : DB × Nat :=
  ({ db with rows := db.rows.filter (fun r => !cond r) }, db.rows.countP cond)

/-- The call `db.Where(cond).First(&result)` as the handlers see it: the row written
into `result`, or `none` when `result` is left untouched, which happens when no row
matches and when the query returns an error (`err`). -/
def queryFirst (err : Bool) (rows : List User) (cond : User → Bool) : Option User :=
  if err then none else dbFirst rows cond

/-- The call `db.Where(cond).Unscoped().Delete(&user)` as the handler sees it: a delete
that returns an error (`err`) removes nothing and reports zero `RowsAffected`. -/
def queryDelete (err : Bool) (db : DB) (cond : User → Bool) : DB × Nat :=
  if err then (db, 0) else dbDelete db cond

/-- Email validation function (`emailValidation`). The error of the lookup is discarded:
`lookupErr` says that the lookup returns one. -/
def emailValidation (parseAddress : String → Bool) (db : DB) (lookupErr : Bool) (user : User) :
    String × Bool :=
  let result := (queryFirst lookupErr db.rows (fun r => r.Email = user.Email)).getD User.zero
  if result.Email ≠ "" ∧ result.Id ≠ user.Id then
    ("Email Id is already used by someone. please try with another emailid. Example of emailId is 'abc@example.com'", false)
  else if !parseAddress user.Email then
    ("Email Id is invalid. Example of emailId is 'abc@example.com'", false)
  else
    ("", true)

/-- Phone number validation function (`phoneValidation`). The error of the lookup is
discarded: `lookupErr` says that the lookup returns one. -/
def phoneValidation (db : DB) (lookupErr : Bool) (user : User) : String × Bool :=
  let result := (queryFirst lookupErr db.rows (fun r => r.PhoneNo = user.PhoneNo)).getD User.zero
  if result.PhoneNo ≠ "" ∧ result.Id ≠ user.Id then
    ("This phone number is already used by someone. please try with another phone number", false)
  else if !MatchString phonePattern user.PhoneNo then
    ("Phone number is invalid", false)
  else
    ("", true)

/-! ## Time stamps -/

/-- A wall-clock reading of `time.Now()`. -/
structure Time where
  year : Nat
  month : Nat
  day : Nat
  hour : Nat
  minute : Nat
  second : Nat
deriving DecidableEq, Repr

/-- The decimal digit of `n % 10`. -/
def digitChar (n : Nat) : Char := Char.ofNat (48 + n % 10)

/-- Two decimal digits, zero padded. -/
def pad2 (n : Nat) : List Char := [digitChar (n / 10), digitChar n]

/-- Four decimal digits, zero padded. -/
def pad4 (n : Nat) : List Char :=
  [digitChar (n / 1000), digitChar (n / 100), digitChar (n / 10), digitChar n]

/-- The call `dt.Format("01-02-2006 15:04:05")`: month-day-year hour:minute:second. -/
def Time.Format (dt : Time) : String :=
  String.mk (pad2 dt.month ++ ['-'] ++ pad2 dt.day ++ ['-'] ++ pad4 dt.year ++ [' '] ++
    pad2 dt.hour ++ [':'] ++ pad2 dt.minute ++ [':'] ++ pad2 dt.second)

/-! ## base64.StdEncoding -/

/-- A byte. -/
abbrev Byte := Fin 256

/-- The standard alphabet `encodeStd`. -/
def encodeStd : List Char :=
  "ABCDEFGHIJKLMNOPQRSTUVWXYZabcdefghijklmnopqrstuvwxyz0123456789+/".data

/-- The alphabet character of a six-bit value. -/
def encChar (v : Nat) : Char := encodeStd.getD (v % 64) 'A'

/-- The padding character `StdPadding`. -/
def padChar : Char := '='

/-- The encoder `Encode`: three bytes give four characters; a tail of one or two bytes
is padded with `=`. -/
def encode : List Byte → List Char
  | b0 :: b1 :: b2 :: rest =>
    let val := b0.val * 65536 + b1.val * 256 + b2.val
    encChar (val / 262144) :: encChar (val / 4096) :: encChar (val / 64) :: encChar val ::
      encode rest
  | [b0, b1] =>
    let val := b0.val * 65536 + b1.val * 256
    [encChar (val / 262144), encChar (val / 4096), encChar (val / 64), padChar]
  | [b0] =>
    let val := b0.val * 65536
    [encChar (val / 262144), encChar (val / 4096), padChar, padChar]
  | [] => []

/-- The call `base64.StdEncoding.EncodeToString(src)`. -/
def EncodeToString (src : List Byte) : String := String.mk (encode src)

/-- The six-bit value of an alphabet character (the `decodeMap` of the encoding). -/
def decChar (c : Char) : Option Nat :=
  let i := encodeStd.indexOf c
  if i < 64 then some i else none

/-- A byte from a natural number, reduced modulo 256. -/
def toByte (n : Nat) : Byte := ⟨n % 256, Nat.mod_lt _ (by decide)⟩

/-- Standard padded base64 decoding (RFC 4648, section 4) of a character list: groups of
four alphabet characters give three bytes, the last group may end in one or two `=`. -/
def decode : List Char → Option (List Byte)
  | [] => some []
  | c0 :: c1 :: c2 :: c3 :: rest =>
    match decChar c0, decChar c1 with
    | some v0, some v1 =>
      if c2 = padChar ∧ c3 = padChar ∧ rest = [] then
        some [toByte (v0 * 4 + v1 / 16)]
      else
        match decChar c2 with
        | some v2 =>
          if c3 = padChar ∧ rest = [] then
            some [toByte (v0 * 4 + v1 / 16), toByte (v1 % 16 * 16 + v2 / 4)]
          else
            match decChar c3, decode rest with
            | some v3, some tail =>
              some (toByte (v0 * 4 + v1 / 16) :: toByte (v1 % 16 * 16 + v2 / 4) ::
                toByte (v2 % 4 * 64 + v3) :: tail)
            | _, _ => none
        | none => none
    | _, _ => none
  | _ => none

/-- Decoding of base64 text, the inverse the stored image is read back with. -/
def DecodeString (s : String) : Option (List Byte) := decode s.data

/-! ## Requests and responses -/

/-- The uploaded `image` part of the multipart form: its bytes (`handler.Size` is their
number) and whether `ioutil.ReadAll` returns an error. -/
structure UploadedFile where
  content : List Byte
  readErr : Bool
deriving DecidableEq, Repr

/-- What a handler reads from `*gin.Context` and from its surroundings.
`userid` is `cast.ToUint(context.Param("userid"))`, a `uint` (used modulo `2^64`);
`image` is `none` when `FormFile("image")` returns an error; `now` is `time.Now()`.
The last four fields say which store calls of this request return an error:
`fetchErr` the fetch by id of `UpdateUser`, `emailLookupErr` and `phoneLookupErr` the
duplicate lookups of the two validators, `storeErr` the final call (`db.Create`,
`db.Find`, `db.Save` or the delete). A call that returns an error writes nothing. -/
structure Context where
  userid : Nat
  fullName : String
  email : String
  phoneNo : String
  image : Option UploadedFile
  now : Time
  fetchErr : Bool
  emailLookupErr : Bool
  phoneLookupErr : Bool
  storeErr : Bool
deriving DecidableEq, Repr

/-- The form and timestamp fields shared by request and response (`userRequest`). -/
structure userRequest where
  FullName : String
  Email : String
  PhoneNo : String
  Image : String
  CreateaAt : String
  UpdatedAt : String
deriving DecidableEq, Repr

/-- The record returned by create and update (`userResponse`). -/
structure userResponse extends userRequest where
  ID : Int
deriving DecidableEq, Repr

/-- The `data` entry of a success envelope. -/
inductive Data where
  | response (r : userResponse)
  | user (u : User)
  | users (us : List User)
  | userid (n : Nat)
deriving DecidableEq, Repr

/-- A JSON reply `context.JSON(status, gin.H{...})`: the HTTP status and the entries
`"status code"`, `"error"`, `"message"` and `"data"` of the body. -/
structure Response where
  status : Nat
  statusCode : String
  error : Option String
  message : Option String
  data : Option Data
deriving DecidableEq, Repr

/-- The constant `http.StatusOK`. -/
def StatusOK : Nat := 200

/-- The constant `http.StatusCreated`. -/
def StatusCreated : Nat := 201

/-- The constant `http.StatusBadRequest`. -/
def StatusBadRequest : Nat := 400

/-- The reply `context.JSON(status, gin.H{"status code": code, "error": msg})`. -/
def errorJSON (status : Nat) (code : String) (msg : String) : Response :=
  { status := status, statusCode := code, error := some msg, message := none, data := none }

/-- The reply `context.JSON(status, gin.H{"status code": code, "message": msg, "data": d})`. -/
def successJSON (status : Nat) (code : String) (msg : String) (d : Data) : Response :=
  { status := status, statusCode := code, error := none, message := some msg, data := some d }

/-- How a handler ends: with a reply, or in a run-time panic (which the recovery
middleware of `gin.Default()` turns into an empty reply with status 500). -/
inductive HandlerResult where
  | replied (r : Response)
  | panicked
deriving DecidableEq, Repr

/-- The copy of a row into the `userResponse` of create and update. -/
def toResponse (user : User) : userResponse :=
  { ID := user.Id, FullName := user.FullName, Email := user.Email, PhoneNo := user.PhoneNo,
    Image := user.Image, CreateaAt := user.CreateaAt, UpdatedAt := user.UpdatedAt }

/-- The image block of `CreateUser` and `UpdateUser` (the same lines in both): the
bytes of the uploaded file, or the message of the reply that ends the request. -/
def readImage (context : Context) : Except String (List Byte) :=
  match context.image with
  | none => .error "Getting error while reading the user image"
  | some file =>
    if file.content.length > 50000 then
      .error "Image size should be below 50kb"
    else if file.readErr then
      .error "Error reading uploaded image from stream"
    else
      .ok file.content

/-! ## Handlers -/

/-- Store the user information in user table (`CreateUser`). -/
def CreateUser (parseAddress : String → Bool) (db : DB) (context : Context) : DB × Response :=
  let user := { User.zero with FullName := context.fullName }
  let nameCheck := fullNameValidation user.FullName
  if !nameCheck.2 then (db, errorJSON StatusBadRequest "400" nameCheck.1) else
  let user := { user with Email := context.email }
  let emailCheck := emailValidation parseAddress db context.emailLookupErr user
  if !emailCheck.2 then (db, errorJSON StatusBadRequest "400" emailCheck.1) else
  let user := { user with PhoneNo := context.phoneNo }
  let phoneCheck := phoneValidation db context.phoneLookupErr user
  if !phoneCheck.2 then (db, errorJSON StatusBadRequest "400" phoneCheck.1) else
  match readImage context with
  | .error msg => (db, errorJSON StatusBadRequest "400" msg)
  | .ok imageFile =>
    let encodedImage := EncodeToString imageFile
    let user := { user with Image := encodedImage }
    let user := { user with CreateaAt := context.now.Format, UpdatedAt := "" }
    if context.storeErr then
      (db, errorJSON StatusBadRequest "500"
        "Getting an error while inserting the user data into the user table")
    else
      let created := dbCreate db user
      (created.1, successJSON StatusCreated "200" "Successfull get the all users"
        (.response (toResponse created.2)))

/-- Get the all users data from the user table (`GetAllUsers`). -/
def GetAllUsers (db : DB) (context : Context) : Response :=
  if context.storeErr then
    errorJSON StatusBadRequest "500"
      "Getting an error while getting all users data from the user table"
  else
    successJSON StatusOK "200" "Successfull get the all users" (.users db.rows)

/-- The conversion `int(userid)` of a `uint` on a 64-bit platform. -/
def uintToInt (userid : Nat) : Int :=
  if userid % 2 ^ 64 < 2 ^ 63 then (userid % 2 ^ 64 : Nat) else (userid % 2 ^ 64 : Nat) - 2 ^ 64

/-- The `uint` subtraction `userid - 1`, which wraps around at zero. -/
def uintPred (userid : Nat) : Nat := (userid % 2 ^ 64 + (2 ^ 64 - 1)) % 2 ^ 64

/-- Get the user data at a position of the fetched list (`GetUser`). -/
def GetUser (db : DB) (context : Context) : HandlerResult :=
  let userid := context.userid
  if context.storeErr then
    .replied (errorJSON StatusBadRequest "500"
      "Getting an error while getting all users data from the user table")
  else
    let users := db.rows
    if (users.length : Int) < uintToInt userid then
      .replied (errorJSON StatusBadRequest "400"
        "Invalid pagination number. please enter the valid pagination.")
    else
      match users.get? (uintPred userid) with
      | some u => .replied (successJSON StatusOK "200" "Successfully get the user data" (.user u))
      | none => .panicked

/-- Update the user data in user table based on user id (`UpdateUser`). -/
def UpdateUser (parseAddress : String → Bool) (db : DB) (context : Context) : DB × Response :=
  let userid : Nat := context.userid % 2 ^ 64
  match queryFirst context.fetchErr db.rows (fun r => r.Id = (userid : Int)) with
  | none => (db, errorJSON StatusBadRequest "400" "Userid is not found")
  | some user =>
    let user := { user with FullName := context.fullName }
    let nameCheck := fullNameValidation user.FullName
    if !nameCheck.2 then (db, errorJSON StatusBadRequest "400" nameCheck.1) else
    let user := { user with Email := context.email }
    let emailCheck := emailValidation parseAddress db context.emailLookupErr user
    if !emailCheck.2 then (db, errorJSON StatusBadRequest "400" emailCheck.1) else
    let user := { user with PhoneNo := context.phoneNo }
    let phoneCheck := phoneValidation db context.phoneLookupErr user
    if !phoneCheck.2 then (db, errorJSON StatusBadRequest "400" phoneCheck.1) else
    match readImage context with
    | .error msg => (db, errorJSON StatusBadRequest "400" msg)
    | .ok imageFile =>
      let encodedImage := EncodeToString imageFile
      let user := { user with Image := encodedImage }
      let user := { user with UpdatedAt := context.now.Format }
      if context.storeErr then
        (db, errorJSON StatusBadRequest "500"
          "Getting an error while updating the user data into the user table")
      else
        (dbSave db user, successJSON 200 "200" "Successfully updated" (.response (toResponse user)))

/-- Delete the user data from the user table based on the userid (`DeleteUser`). The
handler reads only `RowsAffected` of the delete, never its `Error`. -/
def DeleteUser (db : DB) (context : Context) : DB × Response :=
  let userid : Nat := context.userid % 2 ^ 64
  let deleted := queryDelete context.storeErr db (fun r => r.Id = (userid : Int))
  if deleted.2 = 0 then
    (deleted.1, errorJSON StatusBadRequest "400" "Userid is not found")
  else
    (deleted.1, successJSON StatusOK "200" "Successfully deleted" (.userid userid))

/-! ## routes/routes.go -/

/-- The routes that write to the store, each with the context of the request:
`POST /user/create`, `PUT /user/update/:userid`, `DELETE /user/delete/:userid`,
and the two read-only routes `GET /user/getall` and `GET /user/get/:userid`. -/
inductive Request where
  | create (context : Context)
  | getall (context : Context)
  | get (context : Context)
  | update (context : Context)
  | delete (context : Context)
deriving DecidableEq, Repr

/-- The context of a request. -/
def Request.context : Request → Context
  | .create context => context
  | .getall context => context
  | .get context => context
  | .update context => context
  | .delete context => context

/-- The store after one request is handled. -/
def handle (parseAddress : String → Bool) (db : DB) : Request → DB
  | .create context => (CreateUser parseAddress db context).1
  | .getall _ => db
  | .get _ => db
  | .update context => (UpdateUser parseAddress db context).1
  | .delete context => (DeleteUser db context).1

/-- The store after a sequence of requests handled one at a time. -/
def serve (parseAddress : String → Bool) (db : DB) (requests : List Request) : DB :=
  requests.foldl (handle parseAddress) db

/-- A stand-in for the verdict of `mail.ParseAddress` in concrete scenarios: it accepts
the strings with an `@` that has text on both sides. The handlers never use it: they
take the verdict as a parameter. -/
def sampleParseAddress (s : String) : Bool :=
  match s.data.splitOn '@' with
  | [l, d] => !l.isEmpty && !d.isEmpty
  | _ => false

/-! ## Vocabulary of the statements -/

/-- An ASCII letter: a character of `a-z` or `A-Z`. -/
def isLetter (c : Char) : Prop := ('a' ≤ c ∧ c ≤ 'z') ∨ ('A' ≤ c ∧ c ≤ 'Z')

/-- A word: a non-empty run of ASCII letters. -/
def isWord (w : List Char) : Prop := w ≠ [] ∧ ∀ c ∈ w, isLetter c

/-- The acceptance condition of a full name in the words of the specification: 2 to 30
characters long, and one to three whitespace-separated alphabetic words. -/
def specFullNameOk (name : String) : Bool :=
  let words := (name.data.splitOnP Char.isWhitespace).filter (fun w => !w.isEmpty)
  decide (2 ≤ name.length) && decide (name.length ≤ 30) &&
    decide (1 ≤ words.length) && decide (words.length ≤ 3) &&
    words.all (fun w => w.all Char.isAlpha)

/-- The name-format condition the code checks: one to three words of ASCII letters,
consecutive words joined by exactly one space. -/
def nameShape (name : String) : Prop :=
  ∃ ws : List (List Char), 1 ≤ ws.length ∧ ws.length ≤ 3 ∧ (∀ w ∈ ws, isWord w) ∧
    name.data = List.intercalate [' '] ws

/-! ## Sample data of the concrete scenarios -/

/-- A stored user with key 1. -/
def jane : User :=
  { Id := 1, FullName := "Jane Doe", Email := "jane@x.com", PhoneNo := "+1 555 123 4567",
    Image := "AQID", CreateaAt := "03-09-2024 07:05:59", UpdatedAt := "" }

/-- A stored user with key 2. -/
def john : User :=
  { Id := 2, FullName := "John Roe", Email := "john@x.com", PhoneNo := "5550100",
    Image := "AQID", CreateaAt := "03-09-2024 07:06:10", UpdatedAt := "" }

/-- A table with the two sample users. -/
def sampleDB : DB := { rows := [jane, john], nextId := 3 }

/-- A request that carries the fields of `jane`, a three-byte image and path parameter 1. -/
def sampleContext : Context :=
  { userid := 1, fullName := "Jane Doe", email := "jane@x.com", phoneNo := "+1 555 123 4567",
    image := some { content := [1, 2, 3], readErr := false },
    now := { year := 2024, month := 3, day := 9, hour := 7, minute := 5, second := 59 },
    fetchErr := false, emailLookupErr := false, phoneLookupErr := false, storeErr := false }

/-- The invariant of the stores the handlers reach: every key is positive and below the
auto-increment counter, keys are pairwise distinct, emails are pairwise distinct. -/
def storeInv (db : DB) : Prop :=
  (0 < db.nextId ∧ ∀ r ∈ db.rows, 0 < r.Id ∧ r.Id < db.nextId) ∧ (db.rows.map User.Id).Nodup ∧
    (db.rows.map User.Email).Nodup

/-- The message of the duplicate-email reply. -/
def emailDuplicateMessage : String :=
  "Email Id is already used by someone. please try with another emailid. Example of emailId is 'abc@example.com'"

/-- The three field checks of `CreateUser` and `UpdateUser` all pass for the row `user`
under construction (the zero row on create, the fetched row on update). -/
def fieldsValid (parseAddress : String → Bool) (db : DB) (user : User) (context : Context) : Prop :=
  (fullNameValidation context.fullName).2 = true ∧
  (emailValidation parseAddress db context.emailLookupErr
    { user with FullName := context.fullName, Email := context.email }).2 = true ∧
  (phoneValidation db context.phoneLookupErr
    { user with FullName := context.fullName, Email := context.email,
                PhoneNo := context.phoneNo }).2 = true

/-- The row `CreateUser` hands to `db.Create` for the image bytes `imageFile`. -/
def createdUser (context : Context) (imageFile : List Byte) : User :=
  { Id := 0, FullName := context.fullName, Email := context.email, PhoneNo := context.phoneNo,
    Image := EncodeToString imageFile, CreateaAt := context.now.Format, UpdatedAt := "" }

/-- The row `UpdateUser` hands to `db.Save` for the fetched row `old` and the image bytes
`imageFile`. -/
def updatedUser (old : User) (context : Context) (imageFile : List Byte) : User :=
  { Id := old.Id, FullName := context.fullName, Email := context.email,
    PhoneNo := context.phoneNo, Image := EncodeToString imageFile,
    CreateaAt := old.CreateaAt, UpdatedAt := context.now.Format }

/-! # Theorems -/

/-! ## The full-name pattern -/

theorem mem_lowerChars (c : Char) : c ∈ lowerChars ↔ ('a' ≤ c ∧ c ≤ 'z') := by
  constructor
  · intro h
    simp only [lowerChars, List.mem_cons, List.mem_nil_iff, or_false] at h
    rcases h with h|h|h|h|h|h|h|h|h|h|h|h|h|h|h|h|h|h|h|h|h|h|h|h|h|h <;> subst h <;> decide
  · rintro ⟨h1, h2⟩
    have h1' : 97 ≤ c.toNat := h1
    have h2' : c.toNat ≤ 122 := h2
    have hc : c = Char.ofNat c.toNat := (Char.ofNat_toNat c).symm
    generalize c.toNat = n at *
    subst hc
    interval_cases n <;> decide

theorem mem_upperChars (c : Char) : c ∈ upperChars ↔ ('A' ≤ c ∧ c ≤ 'Z') := by
  constructor
  · intro h
    simp only [upperChars, List.mem_cons, List.mem_nil_iff, or_false] at h
    rcases h with h|h|h|h|h|h|h|h|h|h|h|h|h|h|h|h|h|h|h|h|h|h|h|h|h|h <;> subst h <;> decide
  · rintro ⟨h1, h2⟩
    have h1' : 65 ≤ c.toNat := h1
    have h2' : c.toNat ≤ 90 := h2
    have hc : c = Char.ofNat c.toNat := (Char.ofNat_toNat c).symm
    generalize c.toNat = n at *
    subst hc
    interval_cases n <;> decide

theorem mem_alphaChars (c : Char) : c ∈ lowerChars ++ upperChars ↔ isLetter c := by
  rw [List.mem_append, mem_lowerChars, mem_upperChars, isLetter]

theorem matches_oneOf (cs : List Char) (x : List Char) :
    x ∈ (oneOf cs).matches' ↔ ∃ c ∈ cs, x = [c] := by
  induction cs with
  | nil => simp [oneOf]
  | cons a cs ih =>
    have h : oneOf (a :: cs) = RegularExpression.char a + oneOf cs := rfl
    rw [h, RegularExpression.matches'_add, Language.mem_add, ih, RegularExpression.matches'_char]
    constructor
    · rintro (h | ⟨c, hc, rfl⟩)
      · exact ⟨a, by simp, h⟩
      · exact ⟨c, by simp [hc], rfl⟩
    · rintro ⟨c, hc, rfl⟩
      rcases List.mem_cons.1 hc with rfl | hc
      · exact Or.inl rfl
      · exact Or.inr ⟨c, hc, rfl⟩

theorem matches_opt (r : RegularExpression Char) (x : List Char) :
    x ∈ (opt r).matches' ↔ x = [] ∨ x ∈ r.matches' := by
  unfold opt
  rw [RegularExpression.matches'_add, Language.mem_add, RegularExpression.matches'_epsilon,
    Language.mem_one]

theorem matches_star_oneOf (cs : List Char) (x : List Char) :
    x ∈ (RegularExpression.star (oneOf cs)).matches' ↔ ∀ c ∈ x, c ∈ cs := by
  rw [RegularExpression.matches'_star, Language.mem_kstar]
  constructor
  · rintro ⟨L, rfl, hL⟩ c hc
    rw [List.mem_flatten] at hc
    obtain ⟨l, hl, hcl⟩ := hc
    obtain ⟨d, hd, rfl⟩ := (matches_oneOf cs l).1 (hL l hl)
    simp at hcl
    subst hcl
    exact hd
  · intro h
    refine ⟨x.map (fun c => [c]), ?_, ?_⟩
    · clear h
      induction x with
      | nil => rfl
      | cons a x ih => simpa using ih
    · intro y hy
      rw [List.mem_map] at hy
      obtain ⟨c, hc, rfl⟩ := hy
      exact (matches_oneOf cs [c]).2 ⟨c, h c hc, rfl⟩

theorem matches_many1_oneOf (cs : List Char) (x : List Char) :
    x ∈ (many1 (oneOf cs)).matches' ↔ x ≠ [] ∧ ∀ c ∈ x, c ∈ cs := by
  unfold many1
  rw [RegularExpression.matches'_mul, Language.mem_mul]
  constructor
  · rintro ⟨a, ha, b, hb, rfl⟩
    obtain ⟨c, hc, rfl⟩ := (matches_oneOf cs a).1 ha
    rw [matches_star_oneOf] at hb
    refine ⟨by simp, ?_⟩
    intro d hd
    simp at hd
    rcases hd with rfl | hd
    · exact hc
    · exact hb d hd
  · rintro ⟨hne, h⟩
    cases x with
    | nil => exact absurd rfl hne
    | cons a x =>
      refine ⟨[a], (matches_oneOf cs [a]).2 ⟨a, h a (by simp), rfl⟩, x, ?_, rfl⟩
      rw [matches_star_oneOf]
      intro c hc
      exact h c (by simp [hc])

theorem matches_word (x : List Char) : x ∈ (many1 alphaClass).matches' ↔ isWord x := by
  unfold alphaClass isWord
  rw [matches_many1_oneOf]
  simp only [mem_alphaChars]

theorem matches_spaceWord (x : List Char) :
    x ∈ (RegularExpression.char ' ' * many1 alphaClass).matches' ↔
      ∃ w, isWord w ∧ x = ' ' :: w := by
  rw [RegularExpression.matches'_mul, Language.mem_mul]
  constructor
  · rintro ⟨a, ha, b, hb, rfl⟩
    rw [RegularExpression.matches'_char] at ha
    rw [matches_word] at hb
    have : a = [' '] := ha
    subst this
    exact ⟨b, hb, rfl⟩
  · rintro ⟨w, hw, rfl⟩
    exact ⟨[' '], by rw [RegularExpression.matches'_char]; rfl, w, (matches_word w).2 hw, rfl⟩

/-- The language of the full-name pattern: one, two or three words joined by single spaces. -/
theorem fullNamePattern_rmatch (x : List Char) :
    fullNamePattern.rmatch x = true ↔
      ∃ ws : List (List Char), 1 ≤ ws.length ∧ ws.length ≤ 3 ∧ (∀ w ∈ ws, isWord w) ∧
        x = List.intercalate [' '] ws := by
  rw [RegularExpression.rmatch_iff_matches']
  unfold fullNamePattern
  rw [RegularExpression.matches'_mul, Language.mem_mul]
  constructor
  · rintro ⟨a, ha, b, hb, rfl⟩
    rw [matches_word] at ha
    rw [matches_opt] at hb
    rcases hb with rfl | hb
    · exact ⟨[a], by simp, by simp, by simpa using ha, by simp [List.intercalate]⟩
    · rw [RegularExpression.matches'_mul, Language.mem_mul] at hb
      obtain ⟨c, hc, d, hd, rfl⟩ := hb
      obtain ⟨w2, hw2, rfl⟩ := (matches_spaceWord c).1 hc
      rw [matches_opt] at hd
      rcases hd with rfl | hd
      · refine ⟨[a, w2], by simp, by simp, ?_, by simp [List.intercalate]⟩
        intro w hw
        simp at hw
        rcases hw with rfl | rfl <;> assumption
      · obtain ⟨w3, hw3, rfl⟩ := (matches_spaceWord d).1 hd
        refine ⟨[a, w2, w3], by simp, by simp, ?_, by simp [List.intercalate]⟩
        intro w hw
        simp at hw
        rcases hw with rfl | rfl | rfl <;> assumption
  · rintro ⟨ws, h1, h3, hw, rfl⟩
    match ws, h1, h3, hw with
    | [a], _, _, hw =>
      refine ⟨a, (matches_word a).2 (hw a (by simp)), [], (matches_opt _ _).2 (Or.inl rfl),
        by simp [List.intercalate]⟩
    | [a, b], _, _, hw =>
      refine ⟨a, (matches_word a).2 (hw a (by simp)), ' ' :: b, (matches_opt _ _).2 (Or.inr ?_),
        by simp [List.intercalate]⟩
      rw [RegularExpression.matches'_mul, Language.mem_mul]
      exact ⟨' ' :: b, (matches_spaceWord _).2 ⟨b, hw b (by simp), rfl⟩, [],
        (matches_opt _ _).2 (Or.inl rfl), by simp⟩
    | [a, b, c], _, _, hw =>
      refine ⟨a, (matches_word a).2 (hw a (by simp)), ' ' :: b ++ ' ' :: c,
        (matches_opt _ _).2 (Or.inr ?_), by simp [List.intercalate]⟩
      rw [RegularExpression.matches'_mul, Language.mem_mul]
      exact ⟨' ' :: b, (matches_spaceWord _).2 ⟨b, hw b (by simp), rfl⟩, ' ' :: c,
        (matches_opt _ _).2 (Or.inr ((matches_spaceWord _).2 ⟨c, hw c (by simp), rfl⟩)), by simp⟩

theorem utf8Size_of_ascii (c : Char) (h : c.toNat < 128) : c.utf8Size = 1 := by
  have h' : c.val ≤ 127 := by
    show c.val.toNat ≤ 127
    have : c.val.toNat = c.toNat := rfl
    omega
  simp [Char.utf8Size, h']

theorem utf8ByteSize_go_ascii (l : List Char) (h : ∀ c ∈ l, c.toNat < 128) :
    String.utf8ByteSize.go l = l.length := by
  induction l with
  | nil => rfl
  | cons a l ih =>
    simp only [String.utf8ByteSize.go, List.length_cons]
    rw [ih (fun c hc => h c (List.mem_cons_of_mem _ hc)), utf8Size_of_ascii a (h a (by simp))]

theorem utf8ByteSize_ascii (s : String) (h : ∀ c ∈ s.data, c.toNat < 128) :
    s.utf8ByteSize = s.length := by
  cases s with
  | mk l => exact utf8ByteSize_go_ascii l h

theorem isLetter_ascii (c : Char) (h : isLetter c) : c.toNat < 128 := by
  rcases h with ⟨_, h⟩ | ⟨_, h⟩
  · have : c.toNat ≤ 122 := h
    omega
  · have : c.toNat ≤ 90 := h
    omega

theorem isWord_ascii (w : List Char) (h : isWord w) : ∀ c ∈ w, c.toNat < 128 :=
  fun c hc => isLetter_ascii c (h.2 c hc)

theorem words_ascii (ws : List (List Char)) (h3 : ws.length ≤ 3) (hw : ∀ w ∈ ws, isWord w) :
    ∀ c ∈ List.intercalate [' '] ws, c.toNat < 128 := by
  have hsp : (' ' : Char).toNat < 128 := by decide
  match ws, h3, hw with
  | [], _, _ => simp [List.intercalate]
  | [a], _, hw =>
    intro c hc
    simp [List.intercalate] at hc
    exact isWord_ascii a (hw a (by simp)) c hc
  | [a, b], _, hw =>
    intro c hc
    simp [List.intercalate] at hc
    rcases hc with hc | rfl | hc
    · exact isWord_ascii a (hw a (by simp)) c hc
    · exact hsp
    · exact isWord_ascii b (hw b (by simp)) c hc
  | [a, b, d], _, hw =>
    intro c hc
    simp [List.intercalate] at hc
    rcases hc with hc | rfl | hc | rfl | hc
    · exact isWord_ascii a (hw a (by simp)) c hc
    · exact hsp
    · exact isWord_ascii b (hw b (by simp)) c hc
    · exact hsp
    · exact isWord_ascii d (hw d (by simp)) c hc
  | _ :: _ :: _ :: _ :: _, h3, _ => simp at h3

/-- C2 (as amended): `fullNameValidation` accepts a name, returning an empty message
and `true`, exactly when the name is 2 to 30 characters long and consists of one to
three words of ASCII letters joined by single space characters; every other string is
rejected with a non-empty message. -/
theorem fullNameValidation_accepts_iff (name : String) :
    (fullNameValidation name = ("", true) ↔
      2 ≤ name.length ∧ name.length ≤ 30 ∧ nameShape name) ∧
    (fullNameValidation name = ("", true) ∨
      ((fullNameValidation name).2 = false ∧ (fullNameValidation name).1 ≠ "")) := by
  have key : nameShape name → name.utf8ByteSize = name.length := by
    rintro ⟨ws, _, h3, hw, hx⟩
    apply utf8ByteSize_ascii
    rw [hx]
    exact words_ascii ws h3 hw
  have hm : MatchString fullNamePattern name = true ↔ nameShape name :=
    fullNamePattern_rmatch name.data
  constructor
  · unfold fullNameValidation
    constructor
    · intro h
      split at h
      · simp at h
      · rename_i hlen
        simp only at h
        split at h
        · simp at h
        · rename_i hmt
          have hs : nameShape name := hm.1 (by simpa using hmt)
          rw [key hs] at hlen
          exact ⟨by omega, by omega, hs⟩
    · rintro ⟨h2, h30, hs⟩
      have hlen : ¬ (name.utf8ByteSize < 2 ∨ name.utf8ByteSize > 30) := by
        rw [key hs]; omega
      rw [if_neg hlen]
      simp [hm.2 hs]
  · unfold fullNameValidation
    split
    · right; exact ⟨rfl, by decide⟩
    · simp only
      split
      · right; exact ⟨rfl, by decide⟩
      · left; rfl

/-- C2 (as stated) fails: the tab-separated name `ab<TAB>cd` is 5 characters long and
consists of two whitespace-separated alphabetic words, yet `fullNameValidation`
rejects it. -/
theorem fullName_tab_separated_rejected :
    specFullNameOk "ab\tcd" = true ∧ (fullNameValidation "ab\tcd").2 = false := by
  decide

/-! ## GetUser -/

theorem uintToInt_small (p : Nat) (h : p < 2 ^ 63) : uintToInt p = (p : Int) := by
  unfold uintToInt
  have h1 : p % 2 ^ 64 = p := Nat.mod_eq_of_lt (by omega)
  rw [h1, if_pos h]

theorem uintPred_pos (p : Nat) (h0 : 0 < p) (h : p < 2 ^ 64) : uintPred p = p - 1 := by
  unfold uintPred
  omega

/-- In range, `GetUser` replies with the element at the 1-based position. -/
theorem GetUser_in_range (db : DB) (context : Context) (hs : context.storeErr = false)
    (h1 : 1 ≤ context.userid) (hn : context.userid ≤ db.rows.length)
    (hlen : db.rows.length < 2 ^ 63) :
    ∃ u, db.rows.get? (context.userid - 1) = some u ∧
      GetUser db context =
        .replied (successJSON StatusOK "200" "Successfully get the user data" (.user u)) := by
  have hp : context.userid < 2 ^ 63 := by omega
  have hlt : context.userid - 1 < db.rows.length := by omega
  refine ⟨db.rows.get ⟨context.userid - 1, hlt⟩, List.get?_eq_get hlt, ?_⟩
  unfold GetUser
  simp only [hs, Bool.false_eq_true, if_false]
  rw [uintToInt_small _ hp, uintPred_pos _ h1 (by omega)]
  have : ¬ ((db.rows.length : Int) < (context.userid : Int)) := by omega
  rw [if_neg this, List.get?_eq_get hlt]

/-- Past the end of the list, `GetUser` replies with the 400 pagination error. -/
theorem GetUser_past_end (db : DB) (context : Context) (hs : context.storeErr = false)
    (hn : db.rows.length < context.userid) (hp : context.userid < 2 ^ 63) :
    GetUser db context =
      .replied (errorJSON StatusBadRequest "400"
        "Invalid pagination number. please enter the valid pagination.") := by
  unfold GetUser
  simp only [hs, Bool.false_eq_true, if_false]
  rw [uintToInt_small _ hp]
  have : ((db.rows.length : Int) < (context.userid : Int)) := by omega
  rw [if_pos this]

/-- C1 (failing input): at position 0 `GetUser` does not reply with the 400 pagination
error: the guard `len(users) < int(userid)` passes and the index `userid - 1` wraps
around, so the handler panics, on a table of two users as on an empty one. -/
theorem GetUser_position_zero_panics :
    GetUser sampleDB { sampleContext with userid := 0 } = HandlerResult.panicked ∧
    GetUser DB.empty { sampleContext with userid := 0 } = HandlerResult.panicked := by
  decide

/-! ## Store queries and the duplicate checks -/

theorem foldl_minById_some (l : List User) (a : User) :
    ∃ x, l.foldl minById (some a) = some x ∧ (x = a ∨ x ∈ l) := by
  induction l generalizing a with
  | nil => exact ⟨a, rfl, Or.inl rfl⟩
  | cons r l ih =>
    simp only [List.foldl_cons, minById]
    split
    · obtain ⟨x, hx, h⟩ := ih r
      refine ⟨x, hx, Or.inr ?_⟩
      rcases h with rfl | h
      · simp
      · simp [h]
    · obtain ⟨x, hx, h⟩ := ih a
      refine ⟨x, hx, ?_⟩
      rcases h with rfl | h
      · exact Or.inl rfl
      · exact Or.inr (by simp [h])

theorem dbFirst_eq_some (rows : List User) (cond : User → Bool) (r : User)
    (h : dbFirst rows cond = some r) : r ∈ rows ∧ cond r = true := by
  unfold dbFirst at h
  have hmem : r ∈ rows.filter cond := by
    cases hf : rows.filter cond with
    | nil => rw [hf] at h; simp at h
    | cons a l =>
      rw [hf] at h
      simp only [List.foldl_cons, minById] at h
      obtain ⟨x, hx, hx'⟩ := foldl_minById_some l a
      rw [hx] at h
      cases h
      rcases hx' with rfl | hx'
      · simp
      · simp [hx']
  exact List.mem_filter.1 hmem

theorem dbFirst_eq_none (rows : List User) (cond : User → Bool)
    (h : dbFirst rows cond = none) : ∀ r ∈ rows, cond r = false := by
  unfold dbFirst at h
  intro r hr
  by_contra hc
  have hmem : r ∈ rows.filter cond := List.mem_filter.2 ⟨hr, by simpa using hc⟩
  cases hf : rows.filter cond with
  | nil => rw [hf] at hmem; simp at hmem
  | cons a l =>
    rw [hf] at h
    simp only [List.foldl_cons, minById] at h
    obtain ⟨x, hx, _⟩ := foldl_minById_some l a
    rw [hx] at h
    cases h

theorem dbFirst_of_mem (rows : List User) (cond : User → Bool) (r : User) (hr : r ∈ rows)
    (hc : cond r = true) : ∃ x, dbFirst rows cond = some x ∧ x ∈ rows ∧ cond x = true := by
  cases h : dbFirst rows cond with
  | none => have := dbFirst_eq_none rows cond h r hr; simp [hc] at this
  | some x => exact ⟨x, rfl, dbFirst_eq_some rows cond x h⟩

theorem queryFirst_eq_some (err : Bool) (rows : List User) (cond : User → Bool) (r : User)
    (h : queryFirst err rows cond = some r) : err = false ∧ dbFirst rows cond = some r := by
  unfold queryFirst at h
  cases err with
  | true => simp at h
  | false => exact ⟨rfl, by simpa using h⟩

/-- A passed email check: the address parses, and when the lookup returned without an
error a non-empty address is held by no row with another key, provided stored emails
are pairwise distinct. -/
theorem emailValidation_ok (parseAddress : String → Bool) (db : DB) (lookupErr : Bool)
    (user : User) (h : (emailValidation parseAddress db lookupErr user).2 = true) :
    parseAddress user.Email = true ∧
      (lookupErr = false → user.Email ≠ "" → (db.rows.map User.Email).Nodup →
        ∀ r ∈ db.rows, r.Email = user.Email → r.Id = user.Id) := by
  unfold emailValidation at h
  simp only at h
  split at h
  · simp at h
  · rename_i hdup
    split at h
    · simp at h
    · rename_i hp
      refine ⟨by simpa using hp, ?_⟩
      intro hl hne hnd r hr he
      obtain ⟨x, hx, hxm, hxc⟩ := dbFirst_of_mem db.rows (fun r => r.Email = user.Email) r hr
        (by simpa using he)
      have hxe : x.Email = user.Email := by simpa using hxc
      have hq : queryFirst lookupErr db.rows (fun r => r.Email = user.Email) = some x := by
        rw [hl]; exact hx
      rw [hq] at hdup
      simp only [Option.getD_some] at hdup
      have hxid : x.Id = user.Id := by
        by_contra hid
        exact hdup ⟨by rw [hxe]; exact hne, hid⟩
      have : r = x := List.inj_on_of_nodup_map hnd hr hxm (by rw [he, hxe])
      rw [this, hxid]

/-! ## Email uniqueness -/

/-- What `CreateUser` leaves in the store: nothing new, or one inserted row whose email
passed the email check. -/
theorem CreateUser_store (parseAddress : String → Bool) (db : DB) (context : Context) :
    (CreateUser parseAddress db context).1 = db ∨
      ∃ user : User, user.Email = context.email ∧
        (emailValidation parseAddress db context.emailLookupErr
          { User.zero with FullName := context.fullName, Email := context.email }).2 = true ∧
        (CreateUser parseAddress db context).1 = (dbCreate db user).1 := by
  unfold CreateUser
  simp only
  split
  · exact Or.inl rfl
  · split
    · exact Or.inl rfl
    · rename_i he
      split
      · exact Or.inl rfl
      · split
        · exact Or.inl rfl
        · split
          · exact Or.inl rfl
          · exact Or.inr ⟨_, rfl, by simpa using he, rfl⟩

/-- What `UpdateUser` leaves in the store: no change, or the fetched row saved under its
own key with an email that passed the email check. -/
theorem UpdateUser_store (parseAddress : String → Bool) (db : DB) (context : Context) :
    (UpdateUser parseAddress db context).1 = db ∨
      ∃ old user : User,
        dbFirst db.rows (fun r => r.Id = ((context.userid % 2 ^ 64 : Nat) : Int)) = some old ∧
        user.Id = old.Id ∧ user.Email = context.email ∧
        (emailValidation parseAddress db context.emailLookupErr
          { old with FullName := context.fullName, Email := context.email }).2 = true ∧
        (UpdateUser parseAddress db context).1 = dbSave db user := by
  unfold UpdateUser
  simp only
  split
  · exact Or.inl rfl
  · rename_i old hold
    split
    · exact Or.inl rfl
    · split
      · exact Or.inl rfl
      · rename_i he
        split
        · exact Or.inl rfl
        · split
          · exact Or.inl rfl
          · split
            · exact Or.inl rfl
            · exact Or.inr ⟨old, _, (queryFirst_eq_some _ _ _ _ hold).2, by rfl, by rfl,
                by simpa using he, rfl⟩

theorem storeInv_empty : storeInv DB.empty := by
  simp [storeInv, DB.empty]

theorem storeInv_create (parseAddress : String → Bool) (hp : parseAddress "" = false)
    (db : DB) (context : Context) (hl : context.emailLookupErr = false) (h : storeInv db) :
    storeInv (CreateUser parseAddress db context).1 := by
  rcases CreateUser_store parseAddress db context with hc | ⟨user, hue, hv, hc⟩
  · rw [hc]; exact h
  · rw [hc]
    obtain ⟨hpa, hfree⟩ := emailValidation_ok parseAddress db _ _ hv
    replace hfree := hfree hl
    have hne : context.email ≠ "" := by
      intro h0
      simp only [h0, hp] at hpa
      exact absurd hpa (by simp)
    obtain ⟨⟨hnext, hid⟩, hnd, hem⟩ := h
    have hfree' : ∀ r ∈ db.rows, r.Email ≠ context.email := by
      intro r hr he
      have := hfree hne hem r hr he
      have hpos := (hid r hr).1
      simp only [User.zero] at this
      omega
    refine ⟨⟨?_, ?_⟩, ?_, ?_⟩
    · simp only [dbCreate]; omega
    · intro r hr
      simp only [dbCreate, List.mem_append, List.mem_singleton] at hr
      rcases hr with hr | rfl
      · have := hid r hr
        simp only [dbCreate]
        omega
      · simp only [dbCreate]
        omega
    · simp only [dbCreate, List.map_append, List.map_cons, List.map_nil]
      rw [List.nodup_append]
      refine ⟨hnd, by simp, ?_⟩
      intro a ha hb
      simp only [List.mem_singleton] at hb
      rw [List.mem_map] at ha
      obtain ⟨r, hr, rfl⟩ := ha
      have := (hid r hr).2
      omega
    · simp only [dbCreate, List.map_append, List.map_cons, List.map_nil]
      rw [List.nodup_append]
      refine ⟨hem, by simp, ?_⟩
      intro a ha hb
      simp only [List.mem_singleton] at hb
      rw [List.mem_map] at ha
      obtain ⟨r, hr, rfl⟩ := ha
      exact hfree' r hr (by rw [hb, hue])

theorem storeInv_update (parseAddress : String → Bool) (hp : parseAddress "" = false)
    (db : DB) (context : Context) (hl : context.emailLookupErr = false) (h : storeInv db) :
    storeInv (UpdateUser parseAddress db context).1 := by
  rcases UpdateUser_store parseAddress db context with hc | ⟨old, user, hold, huid, hue, hv, hc⟩
  · rw [hc]; exact h
  · rw [hc]
    obtain ⟨hpa, hfree⟩ := emailValidation_ok parseAddress db _ _ hv
    replace hfree := hfree hl
    have hne : context.email ≠ "" := by
      intro h0
      simp only [h0, hp] at hpa
      exact absurd hpa (by simp)
    obtain ⟨⟨hnext, hid⟩, hnd, hem⟩ := h
    have hfree' : ∀ r ∈ db.rows, r.Email = context.email → r.Id = user.Id := by
      intro r hr he
      rw [huid]
      exact hfree hne hem r hr he
    obtain ⟨holdmem, _⟩ := dbFirst_eq_some _ _ _ hold
    have hany : db.rows.any (fun r => decide (r.Id = user.Id)) = true := by
      rw [List.any_eq_true]
      exact ⟨old, holdmem, by simp [huid]⟩
    unfold dbSave
    rw [if_pos hany]
    have hidmap : (db.rows.map (fun r => if r.Id = user.Id then user else r)).map User.Id
        = db.rows.map User.Id := by
      rw [List.map_map]
      apply List.map_congr_left
      intro r _
      simp only [Function.comp]
      split
      · rename_i hr; exact hr.symm
      · rfl
    refine ⟨⟨hnext, ?_⟩, ?_, ?_⟩
    · intro r hr
      simp only [List.mem_map] at hr
      obtain ⟨r0, hr0, rfl⟩ := hr
      split
      · rename_i hr0id
        rw [← hr0id]; exact hid r0 hr0
      · exact hid r0 hr0
    · show ((db.rows.map (fun r => if r.Id = user.Id then user else r)).map User.Id).Nodup
      rw [hidmap]; exact hnd
    · show ((db.rows.map (fun r => if r.Id = user.Id then user else r)).map User.Email).Nodup
      rw [List.map_map]
      have hrows : db.rows.Nodup := List.Nodup.of_map _ hnd
      apply List.Nodup.map_on _ hrows
      intro x hx y hy hxy
      simp only [Function.comp] at hxy
      by_cases hxi : x.Id = user.Id <;> by_cases hyi : y.Id = user.Id
      · exact List.inj_on_of_nodup_map hnd hx hy (by rw [hxi, hyi])
      · rw [if_pos hxi, if_neg hyi, hue] at hxy
        exact absurd (hfree' y hy hxy.symm) hyi
      · rw [if_neg hxi, if_pos hyi, hue] at hxy
        exact absurd (hfree' x hx hxy) hxi
      · rw [if_neg hxi, if_neg hyi] at hxy
        exact List.inj_on_of_nodup_map hem hx hy hxy

/-- What `DeleteUser` leaves in the store: the rows without the rows of the id, or, when
the delete returns an error, every row. -/
theorem DeleteUser_store (db : DB) (context : Context) :
    (DeleteUser db context).1 =
      if context.storeErr then db
      else { rows := db.rows.filter
               (fun r => !decide (r.Id = ((context.userid % 2 ^ 64 : Nat) : Int))),
             nextId := db.nextId } := by
  unfold DeleteUser queryDelete dbDelete
  cases context.storeErr
  · simp only [Bool.false_eq_true, if_false]
    split <;> rfl
  · simp only [if_true]

theorem storeInv_delete (db : DB) (context : Context) (h : storeInv db) :
    storeInv (DeleteUser db context).1 := by
  rw [DeleteUser_store]
  split
  · exact h
  · obtain ⟨⟨hnext, hid⟩, hnd, hem⟩ := h
    refine ⟨⟨hnext, fun r hr => hid r (List.mem_filter.1 hr).1⟩, ?_, ?_⟩
    · exact List.Nodup.sublist (List.Sublist.map _ (List.filter_sublist _)) hnd
    · exact List.Nodup.sublist (List.Sublist.map _ (List.filter_sublist _)) hem

theorem storeInv_handle (parseAddress : String → Bool) (hp : parseAddress "" = false)
    (db : DB) (req : Request) (hl : req.context.emailLookupErr = false) (h : storeInv db) :
    storeInv (handle parseAddress db req) := by
  cases req with
  | create context => exact storeInv_create parseAddress hp db context hl h
  | getall _ => exact h
  | get _ => exact h
  | update context => exact storeInv_update parseAddress hp db context hl h
  | delete context => exact storeInv_delete db context h

theorem storeInv_serve (parseAddress : String → Bool) (hp : parseAddress "" = false)
    (requests : List Request) (hl : ∀ req ∈ requests, req.context.emailLookupErr = false)
    (db : DB) (h : storeInv db) :
    storeInv (serve parseAddress db requests) := by
  induction requests generalizing db with
  | nil => exact h
  | cons req rest ih =>
    exact ih (fun r hr => hl r (List.mem_cons_of_mem _ hr)) _
      (storeInv_handle parseAddress hp db req (hl req (List.mem_cons_self _ _)) h)

/-- As long as no duplicate-email lookup returns an error, the pre-check keeps the emails
apart: starting from the empty store, after every sequence of requests handled one at a
time no two stored users have the same email (given that `mail.ParseAddress` rejects
the empty string). -/
theorem email_unique_of_lookups (parseAddress : String → Bool) (hp : parseAddress "" = false)
    (requests : List Request) (hl : ∀ req ∈ requests, req.context.emailLookupErr = false) :
    (serve parseAddress DB.empty requests).rows.Pairwise (fun a b => a.Email ≠ b.Email) := by
  have h := (storeInv_serve parseAddress hp requests hl DB.empty storeInv_empty).2.2
  rw [List.Nodup, List.pairwise_map] at h
  exact h

/-- C4 (failing input): after `jane` is created, a second create request with her email
whose duplicate lookup returns an error is answered with status 201, and the store then
holds two users with the same email. `emailValidation` discards the error of
`First`, finds `result` untouched and lets the request pass. -/
theorem duplicate_email_after_failed_lookup :
    (CreateUser sampleParseAddress DB.empty sampleContext).2.status = 201 ∧
    (CreateUser sampleParseAddress (CreateUser sampleParseAddress DB.empty sampleContext).1
      { sampleContext with phoneNo := "5550100", emailLookupErr := true }).2.status = 201 ∧
    (serve sampleParseAddress DB.empty
      [.create sampleContext,
       .create { sampleContext with phoneNo := "5550100", emailLookupErr := true }]).rows.map
        (fun r => (r.Id, r.Email)) = [(1, "jane@x.com"), (2, "jane@x.com")] := by
  decide

/-! ## Phone uniqueness -/

/-- C3 (failing input): two create requests with distinct emails and the empty phone
number are both answered with status 201, and the store then holds two users with the
same `phoneNo`. -/
theorem empty_phone_stored_twice :
    (CreateUser sampleParseAddress DB.empty { sampleContext with phoneNo := "" }).2.status = 201 ∧
    (CreateUser sampleParseAddress
      (CreateUser sampleParseAddress DB.empty { sampleContext with phoneNo := "" }).1
      { sampleContext with email := "john@x.com", phoneNo := "" }).2.status = 201 ∧
    (serve sampleParseAddress DB.empty
      [.create { sampleContext with phoneNo := "" },
       .create { sampleContext with email := "john@x.com", phoneNo := "" }]).rows.map
        (fun r => (r.Id, r.PhoneNo)) = [(1, ""), (2, "")] := by
  decide

/-! ## The duplicate-email check -/

/-- C5 (as amended): when the duplicate lookup returns without an error, the candidate's
email is non-empty, the stored emails are pairwise distinct and some stored user with
another id holds the candidate's email, `emailValidation` fails with the duplicate
message; and, in every store and whatever the lookup does, if the candidate's email
parses and every stored record that holds it has the candidate's id, `emailValidation`
succeeds. -/
theorem emailValidation_duplicate_and_self (parseAddress : String → Bool) (db : DB)
    (lookupErr : Bool) (user : User) :
    (lookupErr = false → user.Email ≠ "" → (db.rows.map User.Email).Nodup →
      (∃ r ∈ db.rows, r.Id ≠ user.Id ∧ r.Email = user.Email) →
      emailValidation parseAddress db lookupErr user = (emailDuplicateMessage, false)) ∧
    (parseAddress user.Email = true →
      (∀ r ∈ db.rows, r.Email = user.Email → r.Id = user.Id) →
      emailValidation parseAddress db lookupErr user = ("", true)) := by
  constructor
  · rintro hl hne hnd ⟨r, hr, hid, he⟩
    obtain ⟨x, hx, hxm, hxc⟩ := dbFirst_of_mem db.rows (fun r => r.Email = user.Email) r hr
      (by simpa using he)
    have hxe : x.Email = user.Email := by simpa using hxc
    have hrx : r = x := List.inj_on_of_nodup_map hnd hr hxm (by rw [he, hxe])
    have hq : queryFirst lookupErr db.rows (fun r => r.Email = user.Email) = some x := by
      rw [hl]; exact hx
    unfold emailValidation
    simp only [hq, Option.getD_some]
    rw [if_pos ⟨by rw [hxe]; exact hne, by rw [← hrx]; exact hid⟩]
    rfl
  · intro hp hself
    unfold emailValidation
    simp only
    have hnd : ¬ (((queryFirst lookupErr db.rows
          (fun r => r.Email = user.Email)).getD User.zero).Email ≠ "" ∧
        ((queryFirst lookupErr db.rows
          (fun r => r.Email = user.Email)).getD User.zero).Id ≠ user.Id) := by
      rintro ⟨h1, h2⟩
      cases hf : queryFirst lookupErr db.rows (fun r => r.Email = user.Email) with
      | none => rw [hf] at h1; exact h1 rfl
      | some x =>
        rw [hf] at h2
        obtain ⟨hxm, hxc⟩ := dbFirst_eq_some _ _ _ (queryFirst_eq_some _ _ _ _ hf).2
        exact h2 (hself x hxm (by simpa using hxc))
    rw [if_neg hnd]
    simp [hp]

/-- C5 at the sample store: a new user with the email of `jane` is refused as a duplicate
when the lookup works, and `jane` with her own email passes. -/
theorem emailValidation_duplicate_and_self_witness :
    emailValidation sampleParseAddress sampleDB false { User.zero with Email := "jane@x.com" } =
      (emailDuplicateMessage, false) ∧
    emailValidation sampleParseAddress sampleDB false jane = ("", true) :=
  ⟨(emailValidation_duplicate_and_self sampleParseAddress sampleDB false
      { User.zero with Email := "jane@x.com" }).1 rfl (by decide) (by decide)
      ⟨jane, by decide, by decide, by decide⟩,
   (emailValidation_duplicate_and_self sampleParseAddress sampleDB false jane).2 (by decide)
      (by decide)⟩

/-- C5 (as stated) fails on two stores, with the lookup working. In a store where the
rows with keys 1 and 2 both hold the candidate's email, the candidate with key 1 passes
although the user with key 2 holds its email. In a store where a row holds the empty
email, a new candidate with the empty email is refused with the invalid-format message,
not the duplicate message. -/
theorem emailValidation_counterexample :
    (∃ r ∈ [jane, { john with Email := "jane@x.com" }], r.Id ≠ jane.Id ∧ r.Email = jane.Email) ∧
    emailValidation sampleParseAddress
      { rows := [jane, { john with Email := "jane@x.com" }], nextId := 3 } false jane =
        ("", true) ∧
    (∃ r ∈ [{ jane with Email := "" }], r.Id ≠ User.zero.Id ∧ r.Email = User.zero.Email) ∧
    emailValidation sampleParseAddress { rows := [{ jane with Email := "" }], nextId := 2 } false
      User.zero = ("Email Id is invalid. Example of emailId is 'abc@example.com'", false) := by
  decide

/-! ## Create, update and delete -/

/-- The two ways `CreateUser` ends: a reply with HTTP status 400 and the store as it was,
or (all gates passed, image read, insert done) the row inserted and returned. -/
theorem CreateUser_result (parseAddress : String → Bool) (db : DB) (context : Context) :
    ((CreateUser parseAddress db context).1 = db ∧
      (CreateUser parseAddress db context).2.status = 400) ∨
    ∃ imageFile, fieldsValid parseAddress db User.zero context ∧
      readImage context = .ok imageFile ∧ context.storeErr = false ∧
      CreateUser parseAddress db context =
        ((dbCreate db (createdUser context imageFile)).1,
          successJSON StatusCreated "200" "Successfull get the all users"
            (.response (toResponse (dbCreate db (createdUser context imageFile)).2))) := by
  unfold CreateUser
  simp only
  split
  · exact Or.inl ⟨rfl, rfl⟩
  · rename_i hn
    split
    · exact Or.inl ⟨rfl, rfl⟩
    · rename_i he
      split
      · exact Or.inl ⟨rfl, rfl⟩
      · rename_i hph
        split
        · exact Or.inl ⟨rfl, rfl⟩
        · rename_i imageFile himg
          split
          · exact Or.inl ⟨rfl, rfl⟩
          · rename_i hs
            exact Or.inr ⟨imageFile, ⟨by simpa using hn, by simpa using he, by simpa using hph⟩,
              himg, by simpa using hs, rfl⟩

/-- The two ways `UpdateUser` ends: a reply with HTTP status 400 and the store as it was,
or (row fetched, all gates passed, image read, save done) the fetched row saved with the
fields of the request and returned. -/
theorem UpdateUser_result (parseAddress : String → Bool) (db : DB) (context : Context) :
    ((UpdateUser parseAddress db context).1 = db ∧
      (UpdateUser parseAddress db context).2.status = 400) ∨
    ∃ old imageFile,
      queryFirst context.fetchErr db.rows
        (fun r => r.Id = ((context.userid % 2 ^ 64 : Nat) : Int)) = some old ∧
      fieldsValid parseAddress db old context ∧
      readImage context = .ok imageFile ∧ context.storeErr = false ∧
      UpdateUser parseAddress db context =
        (dbSave db (updatedUser old context imageFile),
          successJSON 200 "200" "Successfully updated"
            (.response (toResponse (updatedUser old context imageFile)))) := by
  unfold UpdateUser
  simp only
  split
  · exact Or.inl ⟨rfl, rfl⟩
  · rename_i old hold
    split
    · exact Or.inl ⟨rfl, rfl⟩
    · rename_i hn
      split
      · exact Or.inl ⟨rfl, rfl⟩
      · rename_i he
        split
        · exact Or.inl ⟨rfl, rfl⟩
        · rename_i hph
          split
          · exact Or.inl ⟨rfl, rfl⟩
          · rename_i imageFile himg
            split
            · exact Or.inl ⟨rfl, rfl⟩
            · rename_i hs
              exact Or.inr ⟨old, imageFile, hold,
                ⟨by simpa using hn, by simpa using he, by simpa using hph⟩,
                himg, by simpa using hs, rfl⟩

/-- C6: a `CreateUser` or `UpdateUser` request that ends in a reply with HTTP status 400
leaves the store identical to the store before it. -/
theorem no_partial_writes (parseAddress : String → Bool) (db : DB) (context : Context) :
    ((CreateUser parseAddress db context).2.status = 400 →
      (CreateUser parseAddress db context).1 = db) ∧
    ((UpdateUser parseAddress db context).2.status = 400 →
      (UpdateUser parseAddress db context).1 = db) := by
  constructor
  · intro h
    rcases CreateUser_result parseAddress db context with hc | ⟨imageFile, _, _, _, hc⟩
    · exact hc.1
    · rw [hc] at h
      simp [successJSON, StatusCreated] at h
  · intro h
    rcases UpdateUser_result parseAddress db context with hc | ⟨old, imageFile, _, _, _, _, hc⟩
    · exact hc.1
    · rw [hc] at h
      simp [successJSON, StatusCreated] at h

/-- C6 at the scenario of the specification: an update of user 1 that changes only the
phone to the number of user 2 gets the duplicate-phone reply and persists nothing. -/
theorem no_partial_writes_witness :
    (UpdateUser sampleParseAddress sampleDB { sampleContext with phoneNo := "5550100" }).2 =
      errorJSON StatusBadRequest "400"
        "This phone number is already used by someone. please try with another phone number" ∧
    (UpdateUser sampleParseAddress sampleDB { sampleContext with phoneNo := "5550100" }).1 =
      sampleDB :=
  ⟨by decide, (no_partial_writes sampleParseAddress sampleDB
    { sampleContext with phoneNo := "5550100" }).2 (by decide)⟩

theorem dbSave_rows_of_mem (db : DB) (user old : User) (hold : old ∈ db.rows)
    (hid : user.Id = old.Id) :
    dbSave db user = { db with rows := db.rows.map (fun r => if r.Id = old.Id then user else r) } := by
  have hany : db.rows.any (fun r => decide (r.Id = user.Id)) = true := by
    rw [List.any_eq_true]
    exact ⟨old, hold, by simp [hid]⟩
  unfold dbSave
  rw [if_pos hany, hid]

/-- C7: after a successful `UpdateUser` the fetch by id had found a record `old`; the
record `saved` in the store and the record `returned` in the reply both have the id and
the `createdAt` of `old`, their `updatedAt` is the formatted current time and their
name, email and phone are those of the request; the store holds the old rows with only
the rows of that id replaced by `saved`, so every row with another id is unchanged. -/
theorem UpdateUser_success_frame (parseAddress : String → Bool) (db : DB) (context : Context)
    (h : (UpdateUser parseAddress db context).2.status = 200) :
    ∃ (old saved : User) (returned : userResponse),
      dbFirst db.rows (fun r => r.Id = ((context.userid % 2 ^ 64 : Nat) : Int)) = some old ∧
      old ∈ db.rows ∧ old.Id = ((context.userid % 2 ^ 64 : Nat) : Int) ∧
      (saved.Id = old.Id ∧ saved.CreateaAt = old.CreateaAt ∧
        saved.UpdatedAt = context.now.Format ∧ saved.FullName = context.fullName ∧
        saved.Email = context.email ∧ saved.PhoneNo = context.phoneNo) ∧
      (UpdateUser parseAddress db context).2.data = some (.response returned) ∧
      (returned.ID = old.Id ∧ returned.CreateaAt = old.CreateaAt ∧
        returned.UpdatedAt = context.now.Format ∧ returned.FullName = context.fullName ∧
        returned.Email = context.email ∧ returned.PhoneNo = context.phoneNo ∧
        returned.Image = saved.Image) ∧
      (UpdateUser parseAddress db context).1.rows =
        db.rows.map (fun r => if r.Id = old.Id then saved else r) ∧
      (∀ r ∈ db.rows, r.Id ≠ old.Id → r ∈ (UpdateUser parseAddress db context).1.rows) ∧
      (∀ r ∈ (UpdateUser parseAddress db context).1.rows, r.Id = old.Id → r = saved) ∧
      (UpdateUser parseAddress db context).1.nextId = db.nextId := by
  rcases UpdateUser_result parseAddress db context with hc | ⟨old, imageFile, hq, _, _, _, hc⟩
  · rw [hc.2] at h
    exact absurd h (by decide)
  · have hold := (queryFirst_eq_some _ _ _ _ hq).2
    obtain ⟨hmem, hcond⟩ := dbFirst_eq_some _ _ _ hold
    have hrows : (UpdateUser parseAddress db context).1.rows =
        db.rows.map (fun r => if r.Id = old.Id then updatedUser old context imageFile else r) := by
      rw [hc]
      show (dbSave db (updatedUser old context imageFile)).rows = _
      rw [dbSave_rows_of_mem db (updatedUser old context imageFile) old hmem rfl]
    refine ⟨old, updatedUser old context imageFile,
      toResponse (updatedUser old context imageFile), hold, hmem, by simpa using hcond,
      ⟨rfl, rfl, rfl, rfl, rfl, rfl⟩, ?_, ⟨rfl, rfl, rfl, rfl, rfl, rfl, rfl⟩, hrows, ?_, ?_, ?_⟩
    · rw [hc]; rfl
    · intro r hr hne
      rw [hrows, List.mem_map]
      exact ⟨r, hr, by rw [if_neg hne]⟩
    · intro r hr hid
      rw [hrows, List.mem_map] at hr
      obtain ⟨r0, _, hr0⟩ := hr
      by_cases h0 : r0.Id = old.Id
      · rw [if_pos h0] at hr0; exact hr0.symm
      · rw [if_neg h0] at hr0; rw [hr0] at h0; exact absurd hid h0
    · rw [hc]
      show (dbSave db (updatedUser old context imageFile)).nextId = _
      rw [dbSave_rows_of_mem db (updatedUser old context imageFile) old hmem rfl]

/-- C7 at a successful update of user 2 of the sample store: the reply carries the record
with id 2, the `createdAt` of `john` and the time of the request as `updatedAt`, the
same record is in the store, and `jane` is unchanged. -/
theorem UpdateUser_success_frame_witness :
    UpdateUser sampleParseAddress sampleDB
        { sampleContext with userid := 2, email := "j.roe@x.com", phoneNo := "5550100" } =
      ({ rows := [jane,
                  { Id := 2, FullName := "Jane Doe", Email := "j.roe@x.com", PhoneNo := "5550100",
                    Image := "AQID", CreateaAt := "03-09-2024 07:06:10",
                    UpdatedAt := "03-09-2024 07:05:59" }],
         nextId := 3 },
       successJSON 200 "200" "Successfully updated"
        (.response
          { ID := 2, FullName := "Jane Doe", Email := "j.roe@x.com", PhoneNo := "5550100",
            Image := "AQID", CreateaAt := "03-09-2024 07:06:10",
            UpdatedAt := "03-09-2024 07:05:59" })) ∧
    ∃ (old saved : User) (returned : userResponse),
      old = john ∧ saved.Id = 2 ∧ returned.ID = 2 ∧
      returned.CreateaAt = john.CreateaAt ∧ saved.CreateaAt = john.CreateaAt ∧
      returned.UpdatedAt = sampleContext.now.Format ∧
      (UpdateUser sampleParseAddress sampleDB
        { sampleContext with userid := 2, email := "j.roe@x.com", phoneNo := "5550100" }).2.data =
          some (.response returned) := by
  refine ⟨by decide, ?_⟩
  obtain ⟨old, saved, returned, hold, _, _, hs, hd, hr, _⟩ :=
    UpdateUser_success_frame sampleParseAddress sampleDB
      { sampleContext with userid := 2, email := "j.roe@x.com", phoneNo := "5550100" } (by decide)
  have hj : old = john := by
    have h2 : dbFirst sampleDB.rows (fun r => r.Id = ((2 % 2 ^ 64 : Nat) : Int)) = some john := by
      decide
    have := hold.symm.trans h2
    exact Option.some.inj this
  subst hj
  exact ⟨john, saved, returned, rfl, hs.1, hr.1, hr.2.1, hs.2.1, hr.2.2.1, hd⟩

/-- C8 (as amended): when the delete statement runs without an error: if no stored user
has the id, `DeleteUser` replies 400 "Userid is not found" and leaves the store
unchanged; if some stored user has it, `DeleteUser` removes the rows with that id,
keeps every other row, and replies 200 echoing the id. -/
theorem DeleteUser_spec (db : DB) (context : Context) (hs : context.storeErr = false) :
    ((∀ r ∈ db.rows, r.Id ≠ ((context.userid % 2 ^ 64 : Nat) : Int)) →
      DeleteUser db context = (db, errorJSON StatusBadRequest "400" "Userid is not found")) ∧
    ((∃ r ∈ db.rows, r.Id = ((context.userid % 2 ^ 64 : Nat) : Int)) →
      DeleteUser db context =
        ({ rows := db.rows.filter (fun r => r.Id ≠ ((context.userid % 2 ^ 64 : Nat) : Int)),
           nextId := db.nextId },
          successJSON StatusOK "200" "Successfully deleted"
            (.userid (context.userid % 2 ^ 64)))) := by
  constructor
  · intro h
    have hc : db.rows.countP (fun r => decide (r.Id = ((context.userid % 2 ^ 64 : Nat) : Int))) = 0 := by
      rw [List.countP_eq_zero]
      intro r hr
      simpa using h r hr
    have hf : db.rows.filter (fun r => !decide (r.Id = ((context.userid % 2 ^ 64 : Nat) : Int)))
        = db.rows := by
      rw [List.filter_eq_self]
      intro r hr
      simpa using h r hr
    unfold DeleteUser queryDelete dbDelete
    simp only [hs, Bool.false_eq_true, if_false, hc, hf, if_true]
  · rintro ⟨r, hr, hid⟩
    have hc : db.rows.countP (fun r => decide (r.Id = ((context.userid % 2 ^ 64 : Nat) : Int))) ≠ 0 := by
      rw [Ne, List.countP_eq_zero]
      intro h
      exact absurd hid (by simpa using h r hr)
    unfold DeleteUser queryDelete dbDelete
    simp only [hs, Bool.false_eq_true, if_false, if_neg hc]
    congr 2
    apply List.filter_congr
    intro x _
    simp

/-- C8 at the sample store, the delete running without an error: deleting id 1 leaves
`john`, deleting id 7 changes nothing. -/
theorem DeleteUser_spec_witness :
    sampleContext.storeErr = false ∧
    DeleteUser sampleDB sampleContext =
      ({ rows := [john], nextId := 3 },
        successJSON StatusOK "200" "Successfully deleted" (.userid 1)) ∧
    DeleteUser sampleDB { sampleContext with userid := 7 } =
      (sampleDB, errorJSON StatusBadRequest "400" "Userid is not found") :=
  ⟨rfl,
   ((DeleteUser_spec sampleDB sampleContext rfl).2 ⟨jane, by decide, by decide⟩).trans (by decide),
   (DeleteUser_spec sampleDB { sampleContext with userid := 7 } rfl).1 (by decide)⟩

/-- C8 (as stated) fails when the delete statement returns an error: user 1 is stored,
yet `DeleteUser` for id 1 keeps the row and does not reply 200, because the handler
reads only `RowsAffected`, which is then zero. -/
theorem DeleteUser_failed_delete_keeps_row :
    (∃ r ∈ sampleDB.rows, r.Id = ((1 % 2 ^ 64 : Nat) : Int)) ∧
    DeleteUser sampleDB { sampleContext with storeErr := true } =
      (sampleDB, errorJSON StatusBadRequest "400" "Userid is not found") := by
  decide

/-! ## Image ingestion -/

theorem decChar_encChar (v : Nat) : decChar (encChar v) = some (v % 64) := by
  have h : ∀ i : Fin 64, decChar (encodeStd.getD i.val 'A') = some i.val := by decide
  exact h ⟨v % 64, Nat.mod_lt _ (by decide)⟩

theorem encChar_ne_padChar (v : Nat) : encChar v ≠ padChar := by
  have h : ∀ i : Fin 64, encodeStd.getD i.val 'A' ≠ padChar := by decide
  exact h ⟨v % 64, Nat.mod_lt _ (by decide)⟩

theorem toByte_eq (n : Nat) (b : Byte) (h : n = b.val) : toByte n = b := by
  apply Fin.ext
  show n % 256 = b.val
  have := b.isLt
  omega

/-- Decoding undoes encoding. -/
theorem decode_encode : ∀ bs : List Byte, decode (encode bs) = some bs
  | [] => rfl
  | [b0] => by
    have h0 := b0.isLt
    simp only [encode, decode, decChar_encChar, true_and, and_self, if_true]
    congr 2
    apply toByte_eq
    omega
  | [b0, b1] => by
    have h0 := b0.isLt
    have h1 := b1.isLt
    simp only [encode, decode, decChar_encChar, encChar_ne_padChar, false_and, true_and,
      and_self, if_true, if_false]
    congr 2
    · apply toByte_eq; omega
    · congr 1
      apply toByte_eq; omega
  | b0 :: b1 :: b2 :: rest => by
    have h0 := b0.isLt
    have h1 := b1.isLt
    have h2 := b2.isLt
    have ih := decode_encode rest
    simp only [encode, decode, decChar_encChar, encChar_ne_padChar, false_and, if_false, ih]
    congr 2
    · apply toByte_eq; omega
    · congr 1
      · apply toByte_eq; omega
      · congr 1
        apply toByte_eq; omega

theorem DecodeString_EncodeToString (bs : List Byte) :
    DecodeString (EncodeToString bs) = some bs := decode_encode bs

theorem readImage_too_large (context : Context) (file : UploadedFile)
    (himg : context.image = some file) (h : 50000 < file.content.length) :
    readImage context = .error "Image size should be below 50kb" := by
  unfold readImage
  rw [himg]
  simp only
  rw [if_pos h]

theorem readImage_ok (context : Context) (file : UploadedFile)
    (himg : context.image = some file) (h : file.content.length ≤ 50000)
    (hr : file.readErr = false) : readImage context = .ok file.content := by
  unfold readImage
  rw [himg]
  simp only
  rw [if_neg (by omega), hr]
  rfl

/-- With the three field checks passed, `CreateUser` goes on to the image block. -/
theorem CreateUser_of_valid (parseAddress : String → Bool) (db : DB) (context : Context)
    (hv : fieldsValid parseAddress db User.zero context) :
    CreateUser parseAddress db context =
      match readImage context with
      | .error msg => (db, errorJSON StatusBadRequest "400" msg)
      | .ok imageFile =>
        if context.storeErr then
          (db, errorJSON StatusBadRequest "500"
            "Getting an error while inserting the user data into the user table")
        else
          ((dbCreate db (createdUser context imageFile)).1,
            successJSON StatusCreated "200" "Successfull get the all users"
              (.response (toResponse (dbCreate db (createdUser context imageFile)).2))) := by
  obtain ⟨h1, h2, h3⟩ := hv
  unfold CreateUser
  simp only [h1, h2, h3, Bool.not_true, Bool.false_eq_true, if_false]
  rfl

/-- With the row fetched and the three field checks passed, `UpdateUser` goes on to the
image block. -/
theorem UpdateUser_of_valid (parseAddress : String → Bool) (db : DB) (context : Context)
    (old : User)
    (hold : queryFirst context.fetchErr db.rows
      (fun r => r.Id = ((context.userid % 2 ^ 64 : Nat) : Int)) = some old)
    (hv : fieldsValid parseAddress db old context) :
    UpdateUser parseAddress db context =
      match readImage context with
      | .error msg => (db, errorJSON StatusBadRequest "400" msg)
      | .ok imageFile =>
        if context.storeErr then
          (db, errorJSON StatusBadRequest "500"
            "Getting an error while updating the user data into the user table")
        else
          (dbSave db (updatedUser old context imageFile),
            successJSON 200 "200" "Successfully updated"
              (.response (toResponse (updatedUser old context imageFile)))) := by
  obtain ⟨h1, h2, h3⟩ := hv
  unfold UpdateUser
  simp only [hold, h1, h2, h3, Bool.not_true, Bool.false_eq_true, if_false]
  rfl

/-- C9: for an uploaded file, in `CreateUser` and in `UpdateUser`. If its size exceeds
50,000 bytes the request is rejected with status 400 and the store is unchanged, and
once the field checks have passed (on update: the row is found as well) the reply is the
image-size error. If its size is at most 50,000 bytes, the file is read and the store
call goes through, then once the field checks have passed the request succeeds and the
image field of the stored and returned record is base64 text that decodes to the bytes
of the file. -/
theorem image_ingestion (parseAddress : String → Bool) (db : DB) (context : Context)
    (file : UploadedFile) (himg : context.image = some file) :
    (50000 < file.content.length →
      ((CreateUser parseAddress db context).1 = db ∧
        (CreateUser parseAddress db context).2.status = 400 ∧
        (fieldsValid parseAddress db User.zero context →
          (CreateUser parseAddress db context).2 =
            errorJSON StatusBadRequest "400" "Image size should be below 50kb")) ∧
      ((UpdateUser parseAddress db context).1 = db ∧
        (UpdateUser parseAddress db context).2.status = 400 ∧
        (∀ old, queryFirst context.fetchErr db.rows
            (fun r => r.Id = ((context.userid % 2 ^ 64 : Nat) : Int)) = some old →
          fieldsValid parseAddress db old context →
          (UpdateUser parseAddress db context).2 =
            errorJSON StatusBadRequest "400" "Image size should be below 50kb"))) ∧
    (file.content.length ≤ 50000 → file.readErr = false → context.storeErr = false →
      (fieldsValid parseAddress db User.zero context →
        ∃ stored : User,
          (CreateUser parseAddress db context).1.rows = db.rows ++ [stored] ∧
          (CreateUser parseAddress db context).2.status = 201 ∧
          (CreateUser parseAddress db context).2.data = some (.response (toResponse stored)) ∧
          DecodeString stored.Image = some file.content) ∧
      (∀ old, queryFirst context.fetchErr db.rows
          (fun r => r.Id = ((context.userid % 2 ^ 64 : Nat) : Int)) = some old →
        fieldsValid parseAddress db old context →
        ∃ saved : User,
          (UpdateUser parseAddress db context).1.rows =
            db.rows.map (fun r => if r.Id = old.Id then saved else r) ∧
          (UpdateUser parseAddress db context).2.status = 200 ∧
          (UpdateUser parseAddress db context).2.data = some (.response (toResponse saved)) ∧
          DecodeString saved.Image = some file.content)) := by
  constructor
  · intro hbig
    have hread := readImage_too_large context file himg hbig
    refine ⟨⟨?_, ?_, ?_⟩, ⟨?_, ?_, ?_⟩⟩
    · rcases CreateUser_result parseAddress db context with hc | ⟨imageFile, _, hok, _, _⟩
      · exact hc.1
      · rw [hread] at hok; cases hok
    · rcases CreateUser_result parseAddress db context with hc | ⟨imageFile, _, hok, _, _⟩
      · exact hc.2
      · rw [hread] at hok; cases hok
    · intro hv
      rw [CreateUser_of_valid parseAddress db context hv, hread]
    · rcases UpdateUser_result parseAddress db context with hc | ⟨old, imageFile, _, _, hok, _, _⟩
      · exact hc.1
      · rw [hread] at hok; cases hok
    · rcases UpdateUser_result parseAddress db context with hc | ⟨old, imageFile, _, _, hok, _, _⟩
      · exact hc.2
      · rw [hread] at hok; cases hok
    · intro old hold hv
      rw [UpdateUser_of_valid parseAddress db context old hold hv, hread]
  · intro hsmall hr hs
    have hread := readImage_ok context file himg hsmall hr
    constructor
    · intro hv
      refine ⟨(dbCreate db (createdUser context file.content)).2, ?_, ?_, ?_, ?_⟩
      · rw [CreateUser_of_valid parseAddress db context hv, hread]
        simp only [hs, Bool.false_eq_true, if_false]
        rfl
      · rw [CreateUser_of_valid parseAddress db context hv, hread]
        simp only [hs, Bool.false_eq_true, if_false]
        rfl
      · rw [CreateUser_of_valid parseAddress db context hv, hread]
        simp only [hs, Bool.false_eq_true, if_false]
        rfl
      · exact DecodeString_EncodeToString file.content
    · intro old hold hv
      obtain ⟨hmem, _⟩ := dbFirst_eq_some _ _ _ (queryFirst_eq_some _ _ _ _ hold).2
      refine ⟨updatedUser old context file.content, ?_, ?_, ?_, ?_⟩
      · rw [UpdateUser_of_valid parseAddress db context old hold hv, hread]
        simp only [hs, Bool.false_eq_true, if_false]
        rw [dbSave_rows_of_mem db (updatedUser old context file.content) old hmem rfl]
      · rw [UpdateUser_of_valid parseAddress db context old hold hv, hread]
        simp only [hs, Bool.false_eq_true, if_false]
        rfl
      · rw [UpdateUser_of_valid parseAddress db context old hold hv, hread]
        simp only [hs, Bool.false_eq_true, if_false]
        rfl
      · exact DecodeString_EncodeToString file.content

/-- C9 at two uploads: a three-byte image is stored on create as text that decodes to
the three bytes, and an image of 50,001 bytes is refused with the image-size reply. -/
theorem image_ingestion_witness :
    (∃ stored : User,
      (CreateUser sampleParseAddress DB.empty sampleContext).1.rows = DB.empty.rows ++ [stored] ∧
      (CreateUser sampleParseAddress DB.empty sampleContext).2.status = 201 ∧
      (CreateUser sampleParseAddress DB.empty sampleContext).2.data =
        some (.response (toResponse stored)) ∧
      DecodeString stored.Image = some [1, 2, 3]) ∧
    (CreateUser sampleParseAddress DB.empty
      { sampleContext with image := some { content := List.replicate 50001 0, readErr := false } }).2
      = errorJSON StatusBadRequest "400" "Image size should be below 50kb" :=
  ⟨((image_ingestion sampleParseAddress DB.empty sampleContext
      { content := [1, 2, 3], readErr := false } rfl).2 (by decide) rfl rfl).1
      ⟨by decide, by decide, by decide⟩,
   ((image_ingestion sampleParseAddress DB.empty
      { sampleContext with image := some { content := List.replicate 50001 0, readErr := false } }
      { content := List.replicate 50001 0, readErr := false } rfl).1
      (by show 50000 < (List.replicate 50001 (0 : Byte)).length
          rw [List.length_replicate]; omega)).1.2.2 ⟨by decide, by decide, by decide⟩⟩

/-! ## Store failures -/

/-- C10 (failing input): when the checked store call fails, `CreateUser`, `GetAllUsers`,
`GetUser` and `UpdateUser` reply with HTTP status 400 (`http.StatusBadRequest`); only the
`"status code"` entry of the body says 500. -/
theorem store_failure_status :
    (CreateUser sampleParseAddress DB.empty { sampleContext with storeErr := true }).2 =
      errorJSON 400 "500" "Getting an error while inserting the user data into the user table" ∧
    GetAllUsers sampleDB { sampleContext with storeErr := true } =
      errorJSON 400 "500" "Getting an error while getting all users data from the user table" ∧
    GetUser sampleDB { sampleContext with storeErr := true } =
      HandlerResult.replied (errorJSON 400 "500"
        "Getting an error while getting all users data from the user table") ∧
    (UpdateUser sampleParseAddress sampleDB { sampleContext with storeErr := true }).2 =
      errorJSON 400 "500" "Getting an error while updating the user data into the user table" := by
  decide

end UserInfoManagement
